import Mathlib

/-!
Verification of the chart-engine core of the `monitor4pub` repository.

The Python sources under `src/gui/` are shallowly embedded here:
floats become `ℚ` (exact arithmetic), Python `None`/`hasattr` checks become
`Option`, and operations that can raise `ZeroDivisionError` return `Option ℚ`
(`none` models the raised exception).  All definitions are translated from the
source files `unified_chart.py`, `price_chart.py`, `options_chart.py`,
`base_chart.py` and `chart_manager.py`.
-/

/-- Python truthiness of an optional float: `None` and `0.0` are falsy. -/
def pyTruthy (x : Option ℚ) : Bool :=
  match x with
  | none => false
  | some v => v != 0

/-- Python truthiness of an optional string: `None` and `""` are falsy. -/
def pyTruthyStr (x : Option String) : Bool :=
  match x with
  | none => false
  | some s => s != ""

/-- `UnifiedChart.margin_left = 50` (also `BaseChart.margin_left`). -/
def marginLeft : ℚ := 50

/-- `UnifiedChart.margin_right = 100` (also `BaseChart.margin_right`). -/
def marginRight : ℚ := 100

/-- `UnifiedChart.strike_margin = 60`. -/
def strikeMargin : ℚ := 60

/-- `UnifiedChart.margin_bottom = 40` (also `BaseChart` and the literal `40`
in `options_chart.py`). -/
def marginBottom : ℚ := 40

/-- `UnifiedChart.margin_top = 20` (also `BaseChart.margin_top`). -/
def marginTop : ℚ := 20

/-- `UnifiedChart._price_to_y` (unified_chart.py lines 431-450).
`scale = self.price_scale` (`None` before any history push; the code then
returns `0`).  Returns `none` exactly when Python raises `ZeroDivisionError`,
i.e. when the zoomed bounds coincide. -/
def UnifiedChart.priceToY (scale : Option (ℚ × ℚ)) (verticalZoom priceOffset : ℚ)
    (height : ℚ) (price : ℚ) : Option ℚ :=
  match scale with
  | none => some 0
  | some (minPrice, maxPrice) =>
    let usableHeight := height - marginTop - marginBottom
    let priceRange := maxPrice - minPrice
    let centerPrice := (maxPrice + minPrice) / 2
    let zoomedRange := priceRange * verticalZoom
    let minP := centerPrice - zoomedRange / 2 + priceOffset
    let maxP := centerPrice + zoomedRange / 2 + priceOffset
    if maxP - minP = 0 then none
    else some (marginTop + (maxP - price) * usableHeight / (maxP - minP))

/-- `PriceChart._price_to_y` (price_chart.py lines 118-131).  Despite the
"Apply zoom and offset" comment in the source, this variant reads neither
`vertical_zoom` nor `price_offset`.  `none` models the `ZeroDivisionError`
raised when `max_price == min_price`. -/
def PriceChart.priceToY (scale : Option (ℚ × ℚ)) (height : ℚ) (price : ℚ) : Option ℚ :=
  match scale with
  | none => some 0
  | some (minPrice, maxPrice) =>
    let usableHeight := height - marginTop - marginBottom
    let priceRange := maxPrice - minPrice
    if priceRange = 0 then none
    else some (marginTop + (1 - (price - minPrice) / priceRange) * usableHeight)

/-- `OptionsChart._price_to_y` (options_chart.py lines 210-219).  This variant
takes a single scalar `y_scale` instead of `(min, max)` bounds; its implied
price range is `[0, y_scale]`.  `none` models the `ZeroDivisionError` raised
when `y_scale == 0`. -/
def OptionsChart.priceToY (priceOffset : ℚ) (height : ℚ) (price : ℚ) (yScale : ℚ) :
    Option ℚ :=
  let usableHeight := height - marginBottom
  if yScale = 0 then none
  else some (marginBottom + (yScale - price) * usableHeight / yScale + priceOffset)

/-- C1 (amended): at `verticalZoom = 1`, `priceOffset = 0`, for bounds
`minPrice < maxPrice` and a canvas taller than the two margins, the
`UnifiedChart` and `PriceChart` transforms are monotonically decreasing in
price and map `maxPrice` to `marginTop` and `minPrice` to
`canvasHeight - marginBottom`.  The `OptionsChart` variant is also
monotonically decreasing (for positive `yScale`) but maps the top of its scale
(`yScale`) to `marginBottom = 40` and price `0` to `canvasHeight`, not to
`marginTop` and `canvasHeight - marginBottom`. -/
theorem C1_price_to_y_amended (minPrice maxPrice height : ℚ)
    (hlt : minPrice < maxPrice) (hh : marginTop + marginBottom < height) :
    (UnifiedChart.priceToY (some (minPrice, maxPrice)) 1 0 height maxPrice
        = some marginTop
      ∧ UnifiedChart.priceToY (some (minPrice, maxPrice)) 1 0 height minPrice
        = some (height - marginBottom)
      ∧ ∀ p q yp yq, p < q →
          UnifiedChart.priceToY (some (minPrice, maxPrice)) 1 0 height p = some yp →
          UnifiedChart.priceToY (some (minPrice, maxPrice)) 1 0 height q = some yq →
          yq < yp)
    ∧ (PriceChart.priceToY (some (minPrice, maxPrice)) height maxPrice
        = some marginTop
      ∧ PriceChart.priceToY (some (minPrice, maxPrice)) height minPrice
        = some (height - marginBottom)
      ∧ ∀ p q yp yq, p < q →
          PriceChart.priceToY (some (minPrice, maxPrice)) height p = some yp →
          PriceChart.priceToY (some (minPrice, maxPrice)) height q = some yq →
          yq < yp)
    ∧ ∀ yScale : ℚ, 0 < yScale →
        OptionsChart.priceToY 0 height yScale yScale = some marginBottom
        ∧ OptionsChart.priceToY 0 height 0 yScale = some height
        ∧ ∀ p q yp yq, p < q →
            OptionsChart.priceToY 0 height p yScale = some yp →
            OptionsChart.priceToY 0 height q yScale = some yq →
            yq < yp := by
  have hr : maxPrice - minPrice ≠ 0 := by linarith
  have hu : (0 : ℚ) < height - marginTop - marginBottom := by
    simp only [marginTop, marginBottom] at hh ⊢; linarith
  refine ⟨⟨?_, ?_, ?_⟩, ⟨?_, ?_, ?_⟩, ?_⟩
  · simp only [UnifiedChart.priceToY]
    rw [if_neg (by intro h; apply hr; linarith [h])]
    congr 1
    field_simp
  · simp only [UnifiedChart.priceToY]
    rw [if_neg (by intro h; apply hr; linarith [h])]
    congr 1
    field_simp
    ring
  · intro p q yp yq hpq hp hq
    simp only [UnifiedChart.priceToY] at hp hq
    rw [if_neg (by intro h; apply hr; linarith [h])] at hp hq
    have hyp := Option.some.inj hp
    have hyq := Option.some.inj hq
    subst hyp; subst hyq
    have hden : ((maxPrice + minPrice) / 2 + (maxPrice - minPrice) * 1 / 2 + 0)
        - ((maxPrice + minPrice) / 2 - (maxPrice - minPrice) * 1 / 2 + 0)
        = maxPrice - minPrice := by ring
    rw [hden]
    have : (0 : ℚ) < maxPrice - minPrice := by linarith
    apply add_lt_add_left
    apply div_lt_div_of_pos_right _ this
    apply mul_lt_mul_of_pos_right _ hu
    linarith
  · simp only [PriceChart.priceToY]
    rw [if_neg hr]
    congr 1
    field_simp
  · simp only [PriceChart.priceToY]
    rw [if_neg hr]
    congr 1
    field_simp
    ring
  · intro p q yp yq hpq hp hq
    simp only [PriceChart.priceToY] at hp hq
    rw [if_neg hr] at hp hq
    have hyp := Option.some.inj hp
    have hyq := Option.some.inj hq
    subst hyp; subst hyq
    have hpos : (0 : ℚ) < maxPrice - minPrice := by linarith
    apply add_lt_add_left
    apply mul_lt_mul_of_pos_right _ hu
    have : (p - minPrice) / (maxPrice - minPrice) < (q - minPrice) / (maxPrice - minPrice) := by
      apply div_lt_div_of_pos_right _ hpos
      linarith
    linarith
  · intro yScale hy
    have hy' : yScale ≠ 0 := ne_of_gt hy
    have hub : (0 : ℚ) < height - marginBottom := by
      simp only [marginTop, marginBottom] at hh ⊢; linarith
    refine ⟨?_, ?_, ?_⟩
    · simp only [OptionsChart.priceToY]
      rw [if_neg hy']
      congr 1
      field_simp
    · simp only [OptionsChart.priceToY]
      rw [if_neg hy']
      congr 1
      field_simp
    · intro p q yp yq hpq hp hq
      simp only [OptionsChart.priceToY] at hp hq
      rw [if_neg hy'] at hp hq
      have hyp := Option.some.inj hp
      have hyq := Option.some.inj hq
      subst hyp; subst hyq
      have h1 : (yScale - q) * (height - marginBottom) < (yScale - p) * (height - marginBottom) := by
        apply mul_lt_mul_of_pos_right _ hub
        linarith
      have h2 : (yScale - q) * (height - marginBottom) / yScale
          < (yScale - p) * (height - marginBottom) / yScale :=
        div_lt_div_of_pos_right h1 hy
      linarith

/-- Witness for C1 at `minPrice = 0`, `maxPrice = 100`, `height = 200`. -/
theorem C1_price_to_y_amended_witness :
    UnifiedChart.priceToY (some (0, 100)) 1 0 200 100 = some marginTop
    ∧ UnifiedChart.priceToY (some (0, 100)) 1 0 200 0 = some (200 - marginBottom) := by
  have h := C1_price_to_y_amended 0 100 200 (by norm_num)
    (by simp only [marginTop, marginBottom]; norm_num)
  exact ⟨h.1.1, h.1.2.1⟩

/-- C1 counterexample: the `OptionsChart` variant (explicitly listed as an
implementation of the transform) does not satisfy the endpoint mapping.  For
its scale `[0, 100]` on a 240-pixel canvas it maps the scale maximum to
`40 ≠ marginTop = 20` and the scale minimum (price `0`) to
`240 ≠ canvasHeight - marginBottom = 200`. -/
theorem C1_counterexample :
    OptionsChart.priceToY 0 240 100 100 = some 40
    ∧ OptionsChart.priceToY 0 240 0 100 = some 240
    ∧ (40 : ℚ) ≠ marginTop
    ∧ (240 : ℚ) ≠ 240 - marginBottom := by
  refine ⟨?_, ?_, ?_, ?_⟩
  · simp only [OptionsChart.priceToY, marginBottom]
    norm_num
  · simp only [OptionsChart.priceToY, marginBottom]
    norm_num
  · simp only [marginTop]; norm_num
  · simp only [marginBottom]; norm_num

/-- C2: with a degenerate cached scale (`minPrice == maxPrice`) the source's
`_price_to_y` raises `ZeroDivisionError` (modelled as `none`) for every
`verticalZoom` and `priceOffset`, in both `UnifiedChart` and `PriceChart` —
it does not return the vertical midpoint demanded by the spec. -/
theorem C2_degenerate_scale_divzero (c verticalZoom priceOffset height price : ℚ) :
    UnifiedChart.priceToY (some (c, c)) verticalZoom priceOffset height price = none
    ∧ PriceChart.priceToY (some (c, c)) height price = none := by
  constructor
  · simp only [UnifiedChart.priceToY]
    rw [if_pos (by ring)]
  · simp only [PriceChart.priceToY]
    rw [if_pos (by ring)]

/-- `ticker.modelGreeks` (ib_insync greeks record); only `delta` is read. -/
structure ModelGreeks where
  delta : Option ℚ
  deriving DecidableEq

/-- `ticker.contract`; only `right` (`"C"` or `"P"`) is read. -/
structure Contract where
  right : String
  deriving DecidableEq

/-- The slice of an ib_insync `Ticker` read by `_calculate_exposure`.
`Option` fields model absent attributes (`hasattr` false) and `None` alike. -/
structure Ticker where
  contract : Contract
  modelGreeks : Option ModelGreeks
  volume : Option ℚ
  callOpenInterest : Option ℚ
  putOpenInterest : Option ℚ
  openInterest : Option ℚ
  deriving DecidableEq

/-- `delta = abs(ticker.modelGreeks.delta) if ticker.modelGreeks.delta else 0.0`
(shared by both `_calculate_exposure` variants). -/
def absDelta (g : ModelGreeks) : ℚ :=
  if pyTruthy g.delta then |g.delta.getD 0| else 0

/-- Open-interest selection in `UnifiedChart._calculate_exposure`
(unified_chart.py lines 175-178): `callOpenInterest` for calls,
`putOpenInterest` otherwise. -/
def UnifiedChart.sideOI (t : Ticker) : ℚ :=
  if t.contract.right = "C" then t.callOpenInterest.getD 0 else t.putOpenInterest.getD 0

/-- `UnifiedChart._calculate_exposure` (unified_chart.py lines 165-188).
Note the final `else` is the `"OI"` branch: a `"GFL"` request with a falsy
`current_bid` falls through to it and returns the open interest. -/
def UnifiedChart.calculateExposure (ticker : Option Ticker) (exposureType : String)
    (currentBid : Option ℚ) : ℚ :=
  match ticker with
  | none => 0
  | some t =>
    match t.modelGreeks with
    | none => 0
    | some g =>
      let delta := absDelta g
      let volume := if pyTruthy t.volume then t.volume.getD 0 else 0
      let oi := UnifiedChart.sideOI t
      if exposureType = "DEX" then delta * oi * 50
      else if exposureType = "VOI" then volume * oi
      else if exposureType = "GFL" ∧ pyTruthy currentBid then
        delta * oi * currentBid.getD 0
      else oi

/-- `OptionsChart._calculate_exposure` (options_chart.py lines 349-368).
Here the `"OI"` case is an explicit branch and the final fallthrough
returns `0.0`. -/
def OptionsChart.calculateExposure (ticker : Option Ticker) (exposureType : String)
    (currentSpot : Option ℚ) : ℚ :=
  match ticker with
  | none => 0
  | some t =>
    match t.modelGreeks with
    | none => 0
    | some g =>
      let delta := absDelta g
      let oi := t.openInterest.getD 0
      let volume := t.volume.getD 0
      if exposureType = "DEX" then delta * oi * 50
      else if exposureType = "VOI" then volume * oi
      else if exposureType = "OI" then oi
      else if exposureType = "GFL" ∧ pyTruthy currentSpot then
        delta * oi * currentSpot.getD 0
      else 0

/-- C3 (amended): with greeks present and a truthy spot `S`, the GFL exposure
is `|delta| * oi * S` in both variants (with each variant's notion of `oi`).
When `S` is absent, `OptionsChart` yields `0`, but `UnifiedChart` falls
through to the open-interest branch and yields `oi`, not `0`. -/
theorem C3_gfl_exposure_amended (t : Ticker) (g : ModelGreeks) (S : ℚ)
    (hg : t.modelGreeks = some g) (hS : S ≠ 0) :
    UnifiedChart.calculateExposure (some t) "GFL" (some S)
      = absDelta g * UnifiedChart.sideOI t * S
    ∧ OptionsChart.calculateExposure (some t) "GFL" (some S)
      = absDelta g * t.openInterest.getD 0 * S
    ∧ OptionsChart.calculateExposure (some t) "GFL" none = 0
    ∧ UnifiedChart.calculateExposure (some t) "GFL" none = UnifiedChart.sideOI t := by
  have hbid : pyTruthy (some S) = true := by
    simp [pyTruthy, hS]
  refine ⟨?_, ?_, ?_, ?_⟩
  · simp only [UnifiedChart.calculateExposure, hg]
    rw [if_neg (by decide), if_neg (by decide), if_pos ⟨trivial, hbid⟩]
    simp
  · simp only [OptionsChart.calculateExposure, hg]
    rw [if_neg (by decide), if_neg (by decide), if_neg (by decide), if_pos ⟨trivial, hbid⟩]
    simp
  · simp only [OptionsChart.calculateExposure, hg]
    rw [if_neg (by decide), if_neg (by decide), if_neg (by decide),
      if_neg (by simp [pyTruthy])]
  · simp only [UnifiedChart.calculateExposure, hg]
    rw [if_neg (by decide), if_neg (by decide), if_neg (by simp [pyTruthy])]

/-- Witness for C3 at the spec's concrete metrics: `delta = 0.4`,
`oi = 1000`, `S = 5000` — GFL exposure `2000000`. -/
theorem C3_gfl_exposure_amended_witness :
    UnifiedChart.calculateExposure
      (some { contract := { right := "C" }, modelGreeks := some { delta := some (2/5) },
              volume := none, callOpenInterest := some 1000, putOpenInterest := none,
              openInterest := some 1000 }) "GFL" (some 5000)
      = absDelta { delta := some (2/5) }
          * UnifiedChart.sideOI
              { contract := { right := "C" }, modelGreeks := some { delta := some (2/5) },
                volume := none, callOpenInterest := some 1000, putOpenInterest := none,
                openInterest := some 1000 } * 5000
    ∧ OptionsChart.calculateExposure
        (some { contract := { right := "C" }, modelGreeks := some { delta := some (2/5) },
                volume := none, callOpenInterest := some 1000, putOpenInterest := none,
                openInterest := some 1000 }) "GFL" none = 0 := by
  have h := C3_gfl_exposure_amended
    { contract := { right := "C" }, modelGreeks := some { delta := some (2/5) },
      volume := none, callOpenInterest := some 1000, putOpenInterest := none,
      openInterest := some 1000 } { delta := some (2/5) } 5000 rfl (by norm_num)
  exact ⟨h.1, h.2.2.1⟩

/-- C3 counterexample: a call ticker with greeks present (`delta = 0.4`,
`callOpenInterest = 1000`) and an absent spot price: `UnifiedChart`'s GFL
exposure is the open interest `1000`, not `0` as the claim requires. -/
theorem C3_counterexample :
    UnifiedChart.calculateExposure
      (some { contract := { right := "C" }, modelGreeks := some { delta := some (2/5) },
              volume := none, callOpenInterest := some 1000, putOpenInterest := none,
              openInterest := none }) "GFL" none = 1000
    ∧ (1000 : ℚ) ≠ 0 := by
  refine ⟨by decide, by norm_num⟩

/-- One element of `options_data`: `(strike, call_ticker, put_ticker)`. -/
abbrev OptionRow := ℚ × Option Ticker × Option Ticker

/-- The exposure-accumulation loop of `UnifiedChart._draw_options_data`
(unified_chart.py lines 292-299): per row `(strike, call_exp, put_exp)`. -/
def UnifiedChart.exposures (data : List OptionRow) (exposureType : String)
    (currentBid : Option ℚ) : List (ℚ × ℚ × ℚ) :=
  data.map fun r =>
    (r.1, UnifiedChart.calculateExposure r.2.1 exposureType currentBid,
     UnifiedChart.calculateExposure r.2.2 exposureType currentBid)

/-- The exposure-accumulation loop of `OptionsChart.draw_delta_chart`
(options_chart.py lines 274-281). -/
def OptionsChart.exposures (data : List OptionRow) (exposureType : String)
    (currentSpot : Option ℚ) : List (ℚ × ℚ × ℚ) :=
  data.map fun r =>
    (r.1, OptionsChart.calculateExposure r.2.1 exposureType currentSpot,
     OptionsChart.calculateExposure r.2.2 exposureType currentSpot)

/-- `max_exp = 0` followed by `max_exp = max(max_exp, call_exp, put_exp)`
inside the loop, in both chart variants. -/
def maxExpOf (exps : List (ℚ × ℚ × ℚ)) : ℚ :=
  exps.foldl (fun m e => max (max m e.2.1) e.2.2) 0

/-- The bar geometry computed by `UnifiedChart._draw_options_data`
(unified_chart.py lines 280-343): per row `(strike, call_width, put_width)`.
The guard `if not self.options_data or not self.max_exposure: return` draws
nothing; `none` models the `ZeroDivisionError` raised by `call_exp / max_exp`
when the observed maximum is zero — this variant has no `max(1.0, ...)`
floor. -/
def UnifiedChart.barWidths (data : List OptionRow) (exposureType : String)
    (currentBid : Option ℚ) (maxExposure : Option ℚ) (width : ℚ) :
    Option (List (ℚ × ℚ × ℚ)) :=
  if data = [] ∨ ¬ pyTruthy maxExposure then some []
  else
    let exps := UnifiedChart.exposures data exposureType currentBid
    let maxExp := maxExpOf exps
    if maxExp = 0 then none
    else some (exps.map fun e =>
      (e.1, e.2.1 / maxExp * (width - marginLeft - marginRight - strikeMargin),
       e.2.2 / maxExp * (width - marginLeft - marginRight - strikeMargin)))

/-- The bar geometry computed by `OptionsChart.draw_delta_chart`
(options_chart.py lines 273-306): the scale floor is `max_exp = max(max_exp, 1.0)`
and `bar_max_width = width - margin_right - 50`. -/
def OptionsChart.barWidths (data : List OptionRow) (exposureType : String)
    (currentSpot : Option ℚ) (width : ℚ) : List (ℚ × ℚ × ℚ) :=
  let exps := OptionsChart.exposures data exposureType currentSpot
  let maxExp := max (maxExpOf exps) 1
  let barMaxWidth := width - marginRight - 50
  exps.map fun e =>
    (e.1, if maxExp > 0 then e.2.1 / maxExp * barMaxWidth else 0,
     if maxExp > 0 then e.2.2 / maxExp * barMaxWidth else 0)

/-- The running maximum of the exposure loop never drops below its seed. -/
theorem le_foldl_max3 (l : List (ℚ × ℚ × ℚ)) (a : ℚ) :
    a ≤ l.foldl (fun m e => max (max m e.2.1) e.2.2) a := by
  induction l generalizing a with
  | nil => exact le_refl a
  | cons x xs ih =>
    simp only [List.foldl_cons]
    exact le_trans (le_trans (le_max_left a x.2.1) (le_max_left _ x.2.2)) (ih _)

/-- Every call/put exposure in the list is bounded by the loop's maximum. -/
theorem mem_le_foldl_max3 (l : List (ℚ × ℚ × ℚ)) (a : ℚ) :
    ∀ e ∈ l, e.2.1 ≤ l.foldl (fun m e => max (max m e.2.1) e.2.2) a
      ∧ e.2.2 ≤ l.foldl (fun m e => max (max m e.2.1) e.2.2) a := by
  induction l generalizing a with
  | nil => intro e he; cases he
  | cons x xs ih =>
    intro e he
    simp only [List.foldl_cons]
    rcases List.mem_cons.mp he with rfl | he'
    · constructor
      · exact le_trans (le_trans (le_max_right a e.2.1) (le_max_left _ e.2.2))
          (le_foldl_max3 xs _)
      · exact le_trans (le_max_right (max a e.2.1) e.2.2) (le_foldl_max3 xs _)
    · exact ih _ e he'

/-- C4 (amended): in `OptionsChart.draw_delta_chart` each bar length is the
row's exposure divided by `max(observedMax, 1.0)` times `bar_max_width`, so no
bar exceeds the available span, and the row holding the session maximum
reaches exactly the span whenever that maximum is at least `1.0` (below the
floor the maximal bar is strictly shorter).  `UnifiedChart._draw_options_data`
has no such floor: it divides by the raw observed maximum, and with a
non-empty snapshot whose exposures are all zero it raises `ZeroDivisionError`
instead of drawing zero-length bars. -/
theorem C4_bar_normalization_amended (data : List OptionRow) (exposureType : String)
    (currentSpot : Option ℚ) (width : ℚ) (hspan : 0 ≤ width - marginRight - 50) :
    (OptionsChart.barWidths data exposureType currentSpot width
      = (OptionsChart.exposures data exposureType currentSpot).map (fun e =>
          (e.1,
           e.2.1 / max (maxExpOf (OptionsChart.exposures data exposureType currentSpot)) 1
             * (width - marginRight - 50),
           e.2.2 / max (maxExpOf (OptionsChart.exposures data exposureType currentSpot)) 1
             * (width - marginRight - 50))))
    ∧ (∀ e ∈ OptionsChart.barWidths data exposureType currentSpot width,
        e.2.1 ≤ width - marginRight - 50 ∧ e.2.2 ≤ width - marginRight - 50)
    ∧ (1 ≤ maxExpOf (OptionsChart.exposures data exposureType currentSpot) →
        ∀ e ∈ OptionsChart.exposures data exposureType currentSpot,
          e.2.1 = maxExpOf (OptionsChart.exposures data exposureType currentSpot) →
          (e.1, width - marginRight - 50,
            e.2.2 / maxExpOf (OptionsChart.exposures data exposureType currentSpot)
              * (width - marginRight - 50))
            ∈ OptionsChart.barWidths data exposureType currentSpot width)
    ∧ (∀ (data' : List OptionRow) (bid maxExposure : Option ℚ) (w : ℚ),
        data' ≠ [] → pyTruthy maxExposure →
        maxExpOf (UnifiedChart.exposures data' exposureType bid) = 0 →
        UnifiedChart.barWidths data' exposureType bid maxExposure w = none) := by
  have hpos : (0 : ℚ)
      < max (maxExpOf (OptionsChart.exposures data exposureType currentSpot)) 1 :=
    lt_of_lt_of_le one_pos (le_max_right _ 1)
  have heq : OptionsChart.barWidths data exposureType currentSpot width
      = (OptionsChart.exposures data exposureType currentSpot).map (fun e =>
          (e.1,
           e.2.1 / max (maxExpOf (OptionsChart.exposures data exposureType currentSpot)) 1
             * (width - marginRight - 50),
           e.2.2 / max (maxExpOf (OptionsChart.exposures data exposureType currentSpot)) 1
             * (width - marginRight - 50))) := by
    simp only [OptionsChart.barWidths]
    refine List.map_congr_left fun e _ => ?_
    rw [if_pos hpos, if_pos hpos]
  refine ⟨heq, ?_, ?_, ?_⟩
  · intro e he
    rw [heq] at he
    rcases List.mem_map.mp he with ⟨x, hx, rfl⟩
    have hb := mem_le_foldl_max3 (OptionsChart.exposures data exposureType currentSpot) 0 x hx
    have hd : max (maxExpOf (OptionsChart.exposures data exposureType currentSpot)) 1 ≠ 0 :=
      ne_of_gt hpos
    constructor
    · have h1 : x.2.1 / max (maxExpOf (OptionsChart.exposures data exposureType currentSpot)) 1
          ≤ 1 := by
        rw [div_le_one hpos]
        exact le_trans hb.1 (le_max_left _ 1)
      calc x.2.1 / max (maxExpOf (OptionsChart.exposures data exposureType currentSpot)) 1
            * (width - marginRight - 50)
          ≤ 1 * (width - marginRight - 50) := mul_le_mul_of_nonneg_right h1 hspan
        _ = width - marginRight - 50 := one_mul _
    · have h1 : x.2.2 / max (maxExpOf (OptionsChart.exposures data exposureType currentSpot)) 1
          ≤ 1 := by
        rw [div_le_one hpos]
        exact le_trans hb.2 (le_max_left _ 1)
      calc x.2.2 / max (maxExpOf (OptionsChart.exposures data exposureType currentSpot)) 1
            * (width - marginRight - 50)
          ≤ 1 * (width - marginRight - 50) := mul_le_mul_of_nonneg_right h1 hspan
        _ = width - marginRight - 50 := one_mul _
  · intro hge e he hmax
    have hflr : max (maxExpOf (OptionsChart.exposures data exposureType currentSpot)) 1
        = maxExpOf (OptionsChart.exposures data exposureType currentSpot) :=
      max_eq_left hge
    have hne : maxExpOf (OptionsChart.exposures data exposureType currentSpot) ≠ 0 := by
      intro h0; rw [h0] at hge; norm_num at hge
    rw [heq]
    simp only [hflr]
    exact List.mem_map.mpr ⟨e, he, by simp [hmax, div_self hne]⟩
  · intro data' bid maxExposure w hne htru h0
    simp only [UnifiedChart.barWidths]
    rw [if_neg (by simp [hne, htru]), if_pos h0]

/-- Witness for C4: one call row with open interest `5` under the `"OI"`
formula on an 800-pixel canvas: bar length `5 / max(5, 1) * 650 = 650`. -/
theorem C4_bar_normalization_amended_witness :
    OptionsChart.barWidths
      [((4500 : ℚ),
        some { contract := { right := "C" }, modelGreeks := some { delta := some (1/2) },
               volume := none, callOpenInterest := none, putOpenInterest := none,
               openInterest := some 5 }, none)] "OI" none 800
      = [((4500 : ℚ), 650, 0)] := by
  have h := C4_bar_normalization_amended
    [((4500 : ℚ),
      some { contract := { right := "C" }, modelGreeks := some { delta := some (1/2) },
             volume := none, callOpenInterest := none, putOpenInterest := none,
             openInterest := some 5 }, none)] "OI" none 800
    (by simp only [marginRight]; norm_num)
  rw [h.1]
  simp [OptionsChart.exposures, OptionsChart.calculateExposure, maxExpOf, absDelta,
    pyTruthy, max_def, marginRight]
  norm_num

/-- C4 counterexample: a non-empty snapshot whose only row has no tickers, so
every exposure is zero.  `UnifiedChart._draw_options_data` divides by the raw
observed maximum `0` and raises `ZeroDivisionError` (modelled by `none`),
contradicting the claimed `max(1.0, observedMax)` floor and the claimed
absence of division-by-zero. -/
theorem C4_counterexample :
    UnifiedChart.barWidths [((5000 : ℚ), none, none)] "GFL" (some 100) (some 1) 800
      = none := by
  simp [UnifiedChart.barWidths, UnifiedChart.exposures, UnifiedChart.calculateExposure,
    maxExpOf, pyTruthy]

/-- `bar.date`, as read by `strftime("%H:%M:%S")`. -/
structure BarTime where
  hh : ℕ
  mm : ℕ
  ss : ℕ
  deriving DecidableEq

/-- One price-history bar.  `quote = some (bid, ask)` models
`hasattr(bar, "bid") and hasattr(bar, "ask")` being true; otherwise only the
`close` attribute is read. -/
structure Bar where
  date : BarTime
  quote : Option (ℚ × ℚ)
  close : ℚ
  deriving DecidableEq

/-- The mutable fields of `UnifiedChart` read or written by its update and
gesture handlers (unified_chart.py `__init__`). -/
structure UnifiedChart.State where
  priceHistory : List Bar
  currentBid : Option ℚ
  currentAsk : Option ℚ
  optionsData : Option (List OptionRow)
  maxExposure : Option ℚ
  exposureType : String
  priceScale : Option (ℚ × ℚ)
  verticalZoom : ℚ
  horizontalZoom : ℚ
  priceOffset : ℚ
  deriving DecidableEq

/-- The initial `UnifiedChart` state set by `__init__` (lines 24-38). -/
def UnifiedChart.initState : UnifiedChart.State where
  priceHistory := []
  currentBid := none
  currentAsk := none
  optionsData := none
  maxExposure := none
  exposureType := "GFL"
  priceScale := none
  verticalZoom := 1
  horizontalZoom := 1
  priceOffset := 0

/-- One gesture delivered to an active drag/zoom anchor.  The zoom events
carry the factor `exp(-dy/200)` resp. `exp(dx/200)` computed by
`handle_zoom` — a positive real, modelled as an arbitrary rational
parameter — while the drag events carry the raw pixel delta used by
`handle_drag`. -/
inductive Gesture where
  | zoomPrice (factor : ℚ)
  | zoomTime (factor : ℚ)
  | dragPrice (dy : ℚ)
  | dragTime (dx : ℚ)

/-- `max(0.1, min(10.0, z))` from `handle_zoom`. -/
def clampZoom (z : ℚ) : ℚ := max (1/10) (min 10 z)

/-- The state mutations of `UnifiedChart.handle_zoom` (lines 498-517) and
`UnifiedChart.handle_drag` (lines 464-480): price-axis zoom multiplies and
clamps `vertical_zoom`; time-axis zoom multiplies and clamps
`horizontal_zoom`; a price-axis drag adds `dy * 0.05 * vertical_zoom` to
`price_offset`; a time-axis drag sets
`horizontal_zoom = max(1.0, horizontal_zoom + dx * 0.01)` with no upper
clamp. -/
def UnifiedChart.applyGesture (s : UnifiedChart.State) : Gesture → UnifiedChart.State
  | .zoomPrice k => { s with verticalZoom := clampZoom (s.verticalZoom * k) }
  | .zoomTime k => { s with horizontalZoom := clampZoom (s.horizontalZoom * k) }
  | .dragPrice dy => { s with priceOffset := s.priceOffset + dy * (1/20) * s.verticalZoom }
  | .dragTime dx => { s with horizontalZoom := max 1 (s.horizontalZoom + dx * (1/100)) }

/-- `clampZoom` always lands in `[0.1, 10]`. -/
theorem clampZoom_bounds (z : ℚ) : 1/10 ≤ clampZoom z ∧ clampZoom z ≤ 10 :=
  ⟨le_max_left _ _, max_le (by norm_num) (min_le_left _ _)⟩

/-- No gesture moves `verticalZoom` out of `[0.1, 10]`. -/
theorem applyGesture_verticalZoom_bounds (s : UnifiedChart.State) (g : Gesture)
    (h1 : 1/10 ≤ s.verticalZoom) (h2 : s.verticalZoom ≤ 10) :
    1/10 ≤ (UnifiedChart.applyGesture s g).verticalZoom
    ∧ (UnifiedChart.applyGesture s g).verticalZoom ≤ 10 := by
  cases g with
  | zoomPrice k => exact clampZoom_bounds _
  | zoomTime k => exact ⟨h1, h2⟩
  | dragPrice dy => exact ⟨h1, h2⟩
  | dragTime dx => exact ⟨h1, h2⟩

/-- C5 (amended): starting from any state with `verticalZoom` in `[0.1, 10]`,
every sequence of gesture events keeps `verticalZoom` in `[0.1, 10]`; every
zoom-gesture event also leaves `verticalZoom` and `horizontalZoom` in
`[0.1, 10]`; but a time-axis drag only clamps `horizontalZoom` from below at
`1.0` and can drive it above `10.0`. -/
theorem C5_zoom_clamp_amended (s : UnifiedChart.State) (gs : List Gesture)
    (h1 : 1/10 ≤ s.verticalZoom) (h2 : s.verticalZoom ≤ 10) :
    (1/10 ≤ (gs.foldl UnifiedChart.applyGesture s).verticalZoom
      ∧ (gs.foldl UnifiedChart.applyGesture s).verticalZoom ≤ 10)
    ∧ (∀ (t : UnifiedChart.State) (k : ℚ),
        1/10 ≤ (UnifiedChart.applyGesture t (.zoomPrice k)).verticalZoom
        ∧ (UnifiedChart.applyGesture t (.zoomPrice k)).verticalZoom ≤ 10
        ∧ 1/10 ≤ (UnifiedChart.applyGesture t (.zoomTime k)).horizontalZoom
        ∧ (UnifiedChart.applyGesture t (.zoomTime k)).horizontalZoom ≤ 10)
    ∧ (∀ (t : UnifiedChart.State) (dx : ℚ),
        1 ≤ (UnifiedChart.applyGesture t (.dragTime dx)).horizontalZoom) := by
  refine ⟨?_, ?_, ?_⟩
  · induction gs generalizing s with
    | nil => exact ⟨h1, h2⟩
    | cons g gs' ih =>
      have hb := applyGesture_verticalZoom_bounds s g h1 h2
      exact ih _ hb.1 hb.2
  · intro t k
    exact ⟨(clampZoom_bounds _).1, (clampZoom_bounds _).2,
      (clampZoom_bounds _).1, (clampZoom_bounds _).2⟩
  · intro t dx
    exact le_max_left 1 _

/-- Witness for C5 from the initial state with one zoom and one drag event. -/
theorem C5_zoom_clamp_amended_witness :
    1/10 ≤ (([Gesture.zoomPrice 3, Gesture.dragPrice 7].foldl UnifiedChart.applyGesture
        UnifiedChart.initState).verticalZoom)
    ∧ (([Gesture.zoomPrice 3, Gesture.dragPrice 7].foldl UnifiedChart.applyGesture
        UnifiedChart.initState).verticalZoom) ≤ 10 := by
  have h := C5_zoom_clamp_amended UnifiedChart.initState
    [Gesture.zoomPrice 3, Gesture.dragPrice 7]
    (by simp only [UnifiedChart.initState]; norm_num)
    (by simp only [UnifiedChart.initState]; norm_num)
  exact h.1

/-- C5 counterexample: from the freshly initialised chart, a single time-axis
drag with `dx = 1000` sets `horizontal_zoom = max(1.0, 1.0 + 10.0) = 11`,
outside `[0.1, 10]`. -/
theorem C5_counterexample :
    (UnifiedChart.applyGesture UnifiedChart.initState (.dragTime 1000)).horizontalZoom = 11
    ∧ ¬ ((UnifiedChart.applyGesture UnifiedChart.initState
          (.dragTime 1000)).horizontalZoom ≤ 10) := by
  have : (UnifiedChart.applyGesture UnifiedChart.initState
      (.dragTime 1000)).horizontalZoom = 11 := by
    simp only [UnifiedChart.applyGesture, UnifiedChart.initState]
    rw [max_eq_right (by norm_num)]
    norm_num
  exact ⟨this, by rw [this]; norm_num⟩

/-- `clampZoom` is the identity on `[0.1, 10]`. -/
theorem clampZoom_eq_self (z : ℚ) (h1 : 1/10 ≤ z) (h2 : z ≤ 10) : clampZoom z = z := by
  unfold clampZoom
  rw [min_eq_right h2, max_eq_right h1]

/-- C6 (amended): a price-axis zoom by `k` followed by one by `1/k` restores
`verticalZoom` — and hence the y coordinate of every price — exactly,
provided the intermediate product `verticalZoom * k` stays inside the clamp
range `[0.1, 10]`.  (When the clamp engages, the mapping is not restored; see
the counterexample.) -/
theorem C6_zoom_inverse_amended (s : UnifiedChart.State) (k : ℚ)
    (h1 : 1/10 ≤ s.verticalZoom) (h2 : s.verticalZoom ≤ 10)
    (h3 : 1/10 ≤ s.verticalZoom * k) (h4 : s.verticalZoom * k ≤ 10) (hk : k ≠ 0) :
    (UnifiedChart.applyGesture (UnifiedChart.applyGesture s (.zoomPrice k))
        (.zoomPrice (1/k))).verticalZoom = s.verticalZoom
    ∧ ∀ (scale : Option (ℚ × ℚ)) (height price : ℚ),
        UnifiedChart.priceToY scale
          ((UnifiedChart.applyGesture (UnifiedChart.applyGesture s (.zoomPrice k))
              (.zoomPrice (1/k))).verticalZoom)
          s.priceOffset height price
        = UnifiedChart.priceToY scale s.verticalZoom s.priceOffset height price := by
  have hz : (UnifiedChart.applyGesture (UnifiedChart.applyGesture s (.zoomPrice k))
      (.zoomPrice (1/k))).verticalZoom = s.verticalZoom := by
    simp only [UnifiedChart.applyGesture]
    rw [clampZoom_eq_self _ h3 h4]
    have : s.verticalZoom * k * (1/k) = s.verticalZoom := by
      field_simp
    rw [this, clampZoom_eq_self _ h1 h2]
  exact ⟨hz, fun scale height price => by rw [hz]⟩

/-- Witness for C6: from the initial state (`verticalZoom = 1`) with `k = 2`. -/
theorem C6_zoom_inverse_amended_witness :
    (UnifiedChart.applyGesture (UnifiedChart.applyGesture UnifiedChart.initState
        (.zoomPrice 2)) (.zoomPrice (1/2))).verticalZoom
      = UnifiedChart.initState.verticalZoom := by
  have h := C6_zoom_inverse_amended UnifiedChart.initState 2
    (by simp only [UnifiedChart.initState]; norm_num)
    (by simp only [UnifiedChart.initState]; norm_num)
    (by simp only [UnifiedChart.initState]; norm_num)
    (by simp only [UnifiedChart.initState]; norm_num)
    (by norm_num)
  exact h.1

/-- C6 counterexample: starting at `verticalZoom = 5` (inside `[0.1, 10]`)
with `k = 10` (inside `[0.1, 10]`), the first zoom clamps `50` down to `10`,
so the round trip ends at `verticalZoom = 1`, and for the scale `(0, 100)` on
a 200-pixel canvas the price `0` maps to `160` instead of the original
`104` — far beyond floating-point tolerance. -/
theorem C6_counterexample :
    (UnifiedChart.applyGesture (UnifiedChart.applyGesture
        { UnifiedChart.initState with verticalZoom := 5 } (.zoomPrice 10))
        (.zoomPrice (1/10))).verticalZoom = 1
    ∧ UnifiedChart.priceToY (some (0, 100)) 5 0 200 0 = some 104
    ∧ UnifiedChart.priceToY (some (0, 100)) 1 0 200 0 = some 160
    ∧ (104 : ℚ) ≠ 160 := by
  refine ⟨?_, ?_, ?_, by norm_num⟩
  · simp only [UnifiedChart.applyGesture, UnifiedChart.initState, clampZoom]
    norm_num
  · simp only [UnifiedChart.priceToY, marginTop, marginBottom]
    rw [if_neg (by norm_num)]
    norm_num
  · simp only [UnifiedChart.priceToY, marginTop, marginBottom]
    rw [if_neg (by norm_num)]
    norm_num

/-- The price-collection loop shared by `update_history` (both chart variants)
and `ChartManager.update_with_historical`: bid and ask when the bar has them,
else the close. -/
def extractPrices (bars : List Bar) : List ℚ :=
  bars.flatMap fun b =>
    match b.quote with
    | some (bid, ask) => [bid, ask]
    | none => [b.close]

/-- Python `min(prices)` (`none` when the list is empty). -/
def pyMin : List ℚ → Option ℚ
  | [] => none
  | p :: ps => some (ps.foldl min p)

/-- Python `max(prices)` (`none` when the list is empty). -/
def pyMax : List ℚ → Option ℚ
  | [] => none
  | p :: ps => some (ps.foldl max p)

/-- `UnifiedChart.update_history` scale computation (unified_chart.py lines
123-145): `(min - 0.1*range, max + 0.1*range)`.  `none` models "no prices":
the cached scale is then left unchanged. -/
def UnifiedChart.updateHistoryScale (bars : List Bar) : Option (ℚ × ℚ) :=
  match pyMin (extractPrices bars), pyMax (extractPrices bars) with
  | some minP, some maxP =>
    some (minP - (maxP - minP) * (1/10), maxP + (maxP - minP) * (1/10))
  | _, _ => none

/-- `PriceChart.update_history` scale computation (price_chart.py lines
30-49): the lower bound stays at the raw minimum; only the upper bound gets
the 10% margin. -/
def PriceChart.updateHistoryScale (bars : List Bar) : Option (ℚ × ℚ) :=
  match pyMin (extractPrices bars), pyMax (extractPrices bars) with
  | some minP, some maxP => some (minP, maxP + (maxP - minP) * (1/10))
  | _, _ => none

/-- `ChartManager.update_with_historical` scale computation (chart_manager.py
lines 47-81): a single scalar `scale = max_price + 0.1 * range`. -/
def ChartManager.historicalScale (bars : List Bar) : Option ℚ :=
  match pyMin (extractPrices bars), pyMax (extractPrices bars) with
  | some minP, some maxP => some (maxP + (maxP - minP) * (1/10))
  | _, _ => none

/-- A `min`-fold is a lower bound of its seed and all elements. -/
theorem foldl_min_le (l : List ℚ) (a : ℚ) :
    l.foldl min a ≤ a ∧ ∀ x ∈ l, l.foldl min a ≤ x := by
  induction l generalizing a with
  | nil => exact ⟨le_refl a, by intro x hx; cases hx⟩
  | cons y ys ih =>
    simp only [List.foldl_cons]
    refine ⟨le_trans (ih (min a y)).1 (min_le_left a y), ?_⟩
    intro x hx
    rcases List.mem_cons.mp hx with rfl | hx'
    · exact le_trans (ih (min a x)).1 (min_le_right a x)
    · exact (ih (min a y)).2 x hx'

/-- A `min`-fold returns its seed or one of the elements. -/
theorem foldl_min_mem (l : List ℚ) (a : ℚ) :
    l.foldl min a = a ∨ l.foldl min a ∈ l := by
  induction l generalizing a with
  | nil => exact Or.inl rfl
  | cons y ys ih =>
    simp only [List.foldl_cons]
    rcases ih (min a y) with h | h
    · rcases min_choice a y with hc | hc
      · exact Or.inl (h.trans hc)
      · exact Or.inr (List.mem_cons.mpr (Or.inl (h.trans hc)))
    · exact Or.inr (List.mem_cons.mpr (Or.inr h))

/-- A `max`-fold is an upper bound of its seed and all elements. -/
theorem le_foldl_max (l : List ℚ) (a : ℚ) :
    a ≤ l.foldl max a ∧ ∀ x ∈ l, x ≤ l.foldl max a := by
  induction l generalizing a with
  | nil => exact ⟨le_refl a, by intro x hx; cases hx⟩
  | cons y ys ih =>
    simp only [List.foldl_cons]
    refine ⟨le_trans (le_max_left a y) (ih (max a y)).1, ?_⟩
    intro x hx
    rcases List.mem_cons.mp hx with rfl | hx'
    · exact le_trans (le_max_right a x) (ih (max a x)).1
    · exact (ih (max a y)).2 x hx'

/-- A `max`-fold returns its seed or one of the elements. -/
theorem foldl_max_mem (l : List ℚ) (a : ℚ) :
    l.foldl max a = a ∨ l.foldl max a ∈ l := by
  induction l generalizing a with
  | nil => exact Or.inl rfl
  | cons y ys ih =>
    simp only [List.foldl_cons]
    rcases ih (max a y) with h | h
    · rcases max_choice a y with hc | hc
      · exact Or.inl (h.trans hc)
      · exact Or.inr (List.mem_cons.mpr (Or.inl (h.trans hc)))
    · exact Or.inr (List.mem_cons.mpr (Or.inr h))

/-- `pyMin` returns an element that bounds the list from below. -/
theorem pyMin_spec (l : List ℚ) (m : ℚ) (h : pyMin l = some m) :
    m ∈ l ∧ ∀ p ∈ l, m ≤ p := by
  match l, h with
  | p :: ps, h =>
    have hm : m = ps.foldl min p := by
      simpa [pyMin] using h.symm
    subst hm
    constructor
    · rcases foldl_min_mem ps p with h' | h'
      · rw [h']; exact List.mem_cons_self p ps
      · exact List.mem_cons.mpr (Or.inr h')
    · intro q hq
      rcases List.mem_cons.mp hq with rfl | hq'
      · exact (foldl_min_le ps q).1
      · exact (foldl_min_le ps p).2 q hq'

/-- `pyMax` returns an element that bounds the list from above. -/
theorem pyMax_spec (l : List ℚ) (m : ℚ) (h : pyMax l = some m) :
    m ∈ l ∧ ∀ p ∈ l, p ≤ m := by
  match l, h with
  | p :: ps, h =>
    have hm : m = ps.foldl max p := by
      simpa [pyMax] using h.symm
    subst hm
    constructor
    · rcases foldl_max_mem ps p with h' | h'
      · rw [h']; exact List.mem_cons_self p ps
      · exact List.mem_cons.mpr (Or.inr h')
    · intro q hq
      rcases List.mem_cons.mp hq with rfl | hq'
      · exact (le_foldl_max ps q).1
      · exact (le_foldl_max ps p).2 q hq'

/-- C7 (amended): for a pushed history with at least one price, let
`minP`/`maxP` be the true minimum/maximum over all bid/ask (or close) values
(characterised below).  `UnifiedChart.update_history` expands both bounds by
10% of the raw range; `PriceChart.update_history` keeps the lower bound at the
raw minimum and expands only the upper bound; and
`ChartManager.update_with_historical` computes only the single upper scale
value `max + 0.1*range`. -/
theorem C7_scale_bounds_amended (bars : List Bar) (minP maxP : ℚ)
    (hmin : pyMin (extractPrices bars) = some minP)
    (hmax : pyMax (extractPrices bars) = some maxP) :
    UnifiedChart.updateHistoryScale bars
      = some (minP - (maxP - minP) * (1/10), maxP + (maxP - minP) * (1/10))
    ∧ PriceChart.updateHistoryScale bars = some (minP, maxP + (maxP - minP) * (1/10))
    ∧ ChartManager.historicalScale bars = some (maxP + (maxP - minP) * (1/10))
    ∧ minP ∈ extractPrices bars ∧ maxP ∈ extractPrices bars
    ∧ ∀ p ∈ extractPrices bars, minP ≤ p ∧ p ≤ maxP := by
  have h1 := pyMin_spec _ _ hmin
  have h2 := pyMax_spec _ _ hmax
  refine ⟨?_, ?_, ?_, h1.1, h2.1, fun p hp => ⟨h1.2 p hp, h2.2 p hp⟩⟩
  · simp [UnifiedChart.updateHistoryScale, hmin, hmax]
  · simp [PriceChart.updateHistoryScale, hmin, hmax]
  · simp [ChartManager.historicalScale, hmin, hmax]

/-- Witness for C7 on a two-bar quote history with prices `{100, 200}`. -/
theorem C7_scale_bounds_amended_witness :
    UnifiedChart.updateHistoryScale
      [{ date := { hh := 9, mm := 30, ss := 0 }, quote := some (100, 150), close := 0 },
       { date := { hh := 9, mm := 31, ss := 0 }, quote := some (180, 200), close := 0 }]
      = some (100 - (200 - 100) * (1/10), 200 + (200 - 100) * (1/10)) := by
  have h := C7_scale_bounds_amended
    [{ date := { hh := 9, mm := 30, ss := 0 }, quote := some (100, 150), close := 0 },
     { date := { hh := 9, mm := 31, ss := 0 }, quote := some (180, 200), close := 0 }]
    100 200
    (by simp [pyMin, extractPrices, min_def]; norm_num)
    (by simp [pyMax, extractPrices, max_def]; norm_num)
  exact h.1

/-- C7 counterexample: for a single quote bar with `bid = 100`, `ask = 200`,
`PriceChart.update_history` caches the scale `(100, 210)` — the lower bound is
the raw minimum, not the `100 - 0.1 * 100 = 90` the claim requires. -/
theorem C7_counterexample :
    PriceChart.updateHistoryScale
      [{ date := { hh := 9, mm := 30, ss := 0 }, quote := some (100, 200), close := 0 }]
      = some (100, 210)
    ∧ (100 : ℚ) ≠ 90 := by
  constructor
  · simp [PriceChart.updateHistoryScale, pyMin, pyMax, extractPrices, min_def, max_def]
    norm_num
  · norm_num

/-- The fields of `ChartManager` (chart_manager.py) plus the fields of its
owned `OptionsChart` that `update_prices` reads: the cached scalar scale,
vertical zoom and price offset. -/
structure ChartManager.State where
  historicalBars : List Bar
  spotPrice : Option ℚ
  chartScale : Option ℚ
  chartVerticalZoom : ℚ
  chartPriceOffset : ℚ
  deriving DecidableEq

/-- `last_bar.bid = bid; last_bar.ask = ask`: in-place quote mutation of a
cached bar (attribute assignment; `date` and `close` are untouched). -/
def setQuote (b : Bar) (bid ask : ℚ) : Bar := { b with quote := some (bid, ask) }

/-- `ChartManager.update_prices` (chart_manager.py lines 30-45): returns early
on an empty history; otherwise mutates the last bar in place, sets the spot
to the mid-price, redraws the history against the unchanged cached scale and
draws the current-price line at the spot.  The second component is the y
coordinate of that line: `none` when no line is drawn (falsy scale) or when
`y_scale / vertical_zoom` resp. `_price_to_y` would raise
`ZeroDivisionError`. -/
def ChartManager.updatePrices (s : ChartManager.State) (bid ask height : ℚ) :
    ChartManager.State × Option ℚ :=
  if h : s.historicalBars = [] then (s, none)
  else
    let bars' := s.historicalBars.dropLast
      ++ [setQuote (s.historicalBars.getLast h) bid ask]
    let spot := (bid + ask) / 2
    let y :=
      if ¬ pyTruthy s.chartScale then none
      else if s.chartVerticalZoom = 0 then none
      else OptionsChart.priceToY s.chartPriceOffset height spot
        (s.chartScale.getD 0 / s.chartVerticalZoom)
    ({ s with historicalBars := bars', spotPrice := some spot }, y)

/-- `UnifiedChart.update_prices` (unified_chart.py lines 117-121): caches the
new bid and ask and triggers `redraw`; the price history is not touched. -/
def UnifiedChart.updatePrices (s : UnifiedChart.State) (bid ask : ℚ) :
    UnifiedChart.State :=
  { s with currentBid := some bid, currentAsk := some ask }

/-- The current-price indicator drawn by `UnifiedChart._draw_current_price`
(lines 344-358), guarded by `if self.current_bid and self.current_ask` in
`redraw` (line 207): a dashed line at `priceToY` of the mid-price. -/
def UnifiedChart.currentPriceY (s : UnifiedChart.State) (height : ℚ) : Option ℚ :=
  if pyTruthy s.currentBid ∧ pyTruthy s.currentAsk then
    UnifiedChart.priceToY s.priceScale s.verticalZoom s.priceOffset height
      ((s.currentBid.getD 0 + s.currentAsk.getD 0) / 2)
  else none

/-- C8: a live quote update changes at most the bid/ask of the most recent
cached sample.  In `ChartManager.update_prices` the last bar's quote becomes
`(bid, ask)` while its date and close, all earlier samples, and the cached
scale are unchanged, and the current-price line is drawn at the price-to-y
transform of the new mid-price `(bid+ask)/2`.  In
`UnifiedChart.update_prices` the cached history and scale are untouched and
the subsequent current-price indicator sits at `priceToY` of the new
mid-price. -/
theorem C8_live_tick_frame (s : ChartManager.State) (u : UnifiedChart.State)
    (bid ask height sc : ℚ) (hne : s.historicalBars ≠ [])
    (hsc : s.chartScale = some sc) (hsc0 : sc ≠ 0) (hvz : s.chartVerticalZoom ≠ 0)
    (hbid : bid ≠ 0) (hask : ask ≠ 0) :
    ((ChartManager.updatePrices s bid ask height).1.historicalBars.length
        = s.historicalBars.length)
    ∧ (∀ i, i < s.historicalBars.length - 1 →
        (ChartManager.updatePrices s bid ask height).1.historicalBars[i]?
          = s.historicalBars[i]?)
    ∧ ((ChartManager.updatePrices s bid ask height).1.historicalBars.getLast?
        = some (setQuote (s.historicalBars.getLast hne) bid ask))
    ∧ ((setQuote (s.historicalBars.getLast hne) bid ask).date
        = (s.historicalBars.getLast hne).date)
    ∧ ((setQuote (s.historicalBars.getLast hne) bid ask).close
        = (s.historicalBars.getLast hne).close)
    ∧ ((ChartManager.updatePrices s bid ask height).1.chartScale = s.chartScale)
    ∧ ((ChartManager.updatePrices s bid ask height).2
        = OptionsChart.priceToY s.chartPriceOffset height ((bid + ask) / 2)
            (sc / s.chartVerticalZoom))
    ∧ ((UnifiedChart.updatePrices u bid ask).priceHistory = u.priceHistory)
    ∧ ((UnifiedChart.updatePrices u bid ask).priceScale = u.priceScale)
    ∧ (UnifiedChart.currentPriceY (UnifiedChart.updatePrices u bid ask) height
        = UnifiedChart.priceToY u.priceScale u.verticalZoom u.priceOffset height
            ((bid + ask) / 2)) := by
  have hlen : 0 < s.historicalBars.length := List.length_pos.mpr hne
  simp only [ChartManager.updatePrices, dif_neg hne]
  refine ⟨?_, ?_, ?_, by trivial, by trivial, by trivial, ?_, by trivial, by trivial, ?_⟩
  · simp only [List.length_append, List.length_dropLast, List.length_singleton]
    omega
  · intro i hi
    have hi' : i < s.historicalBars.dropLast.length := by
      rw [List.length_dropLast]; exact hi
    rw [List.getElem?_append, if_pos hi', List.dropLast_eq_take, List.getElem?_take,
      if_pos (by omega)]
  · exact List.getLast?_concat _
  · rw [if_neg (by simp [pyTruthy, hsc, hsc0]), if_neg hvz, hsc]
    rfl
  · simp only [UnifiedChart.currentPriceY, UnifiedChart.updatePrices]
    rw [if_pos ⟨by simp [pyTruthy, hbid], by simp [pyTruthy, hask]⟩]
    rfl

/-- Witness for C8: a two-bar history, scale `210`, zoom `1`, tick
`(5001, 5002)`. -/
theorem C8_live_tick_frame_witness :
    (ChartManager.updatePrices
      { historicalBars :=
          [{ date := { hh := 9, mm := 30, ss := 0 }, quote := some (5000, 5001), close := 0 },
           { date := { hh := 9, mm := 31, ss := 0 }, quote := some (5000, 5002), close := 0 }],
        spotPrice := none, chartScale := some 210, chartVerticalZoom := 1,
        chartPriceOffset := 0 } 5001 5002 400).1.historicalBars.getLast?
      = some (setQuote
          ([{ date := { hh := 9, mm := 30, ss := 0 }, quote := some (5000, 5001), close := 0 },
            { date := { hh := 9, mm := 31, ss := 0 }, quote := some (5000, 5002), close := 0 }].getLast
            (by simp)) 5001 5002) := by
  have h := C8_live_tick_frame
    { historicalBars :=
        [{ date := { hh := 9, mm := 30, ss := 0 }, quote := some (5000, 5001), close := 0 },
         { date := { hh := 9, mm := 31, ss := 0 }, quote := some (5000, 5002), close := 0 }],
      spotPrice := none, chartScale := some 210, chartVerticalZoom := 1,
      chartPriceOffset := 0 }
    UnifiedChart.initState 5001 5002 400 210
    (by simp) rfl (by norm_num) (by norm_num) (by norm_num) (by norm_num)
  exact h.2.2.1

/-- Zero-padded two-digit field of `strftime`. -/
def pad2 (n : ℕ) : String := if n < 10 then "0" ++ toString n else toString n

/-- `bar.date.strftime("%H:%M:%S")`. -/
def fmtHMS (t : BarTime) : String :=
  pad2 t.hh ++ ":" ++ pad2 t.mm ++ ":" ++ pad2 t.ss

/-- The index sequence `range(0, n, step)` of the time-axis loops: the
multiples of `step` below `n`, in increasing order. -/
def pyStride (n step : ℕ) : List ℕ :=
  (List.range n).filter fun i => i % step == 0

/-- `UnifiedChart._draw_time_axis` (unified_chart.py lines 402-429): one
label per index of `range(0, len(bars), step)` with
`step = max(1, len(bars) // 4)` (`num_labels = 5`), at
`x = margin_left + usable_width * i / len(bars)`, showing
`bars[i].date.strftime("%H:%M:%S")`.  The guarded `break` for
`i >= len(bars)` is dead code, kept here as the `none` branch. -/
def UnifiedChart.timeAxisLabels (bars : List Bar) (width : ℚ) : List (ℚ × String) :=
  let n := bars.length
  let step := max 1 (n / 4)
  (pyStride n step).filterMap fun i =>
    match bars[i]? with
    | some b => some
        (marginLeft + (width - marginLeft - marginRight - strikeMargin) * (i : ℚ) / (n : ℚ),
         fmtHMS b.date)
    | none => none

/-- `PriceChart._draw_time_axis` (price_chart.py lines 133-166): the same
subsampling over the `PriceChart` margins (no strike margin). -/
def PriceChart.timeAxisLabels (bars : List Bar) (width : ℚ) : List (ℚ × String) :=
  let n := bars.length
  let step := max 1 (n / 4)
  (pyStride n step).filterMap fun i =>
    match bars[i]? with
    | some b => some
        (marginLeft + (width - marginLeft - marginRight) * (i : ℚ) / (n : ℚ),
         fmtHMS b.date)
    | none => none

/-- `range(0, n, step)` in closed form: the `⌈n/step⌉` successive multiples
of `step`. -/
theorem pyStride_eq (s : ℕ) (hs : 0 < s) :
    ∀ n, pyStride n s = (List.range ((n + s - 1) / s)).map (· * s) := by
  intro n
  induction n with
  | zero =>
    have h0 : (s - 1) / s = 0 := Nat.div_eq_of_lt (by omega)
    simp [pyStride, h0]
  | succ n ih =>
    have hsucc : pyStride (n + 1) s
        = pyStride n s ++ if n % s == 0 then [n] else [] := by
      simp only [pyStride, List.range_succ, List.filter_append, List.filter_cons,
        List.filter_nil]
    have hc2 : (n + 1 + s - 1) / s = n / s + 1 := by
      have he : n + 1 + s - 1 = n + s := by omega
      rw [he, Nat.add_div_right _ hs]
    by_cases h0 : n % s = 0
    · have hq : s * (n / s) = n := Nat.mul_div_cancel' (Nat.dvd_of_mod_eq_zero h0)
      have hc1 : (n + s - 1) / s = n / s := by
        have he : n + s - 1 = s * (n / s) + (s - 1) := by omega
        rw [he, Nat.mul_add_div hs,
          Nat.div_eq_of_lt (show s - 1 < s by omega), Nat.add_zero]
      rw [hsucc, ih, if_pos (by simpa using h0), hc1, hc2, List.range_succ,
        List.map_append]
      simp only [List.map_cons, List.map_nil]
      rw [Nat.mul_comm (n / s) s, hq]
    · have hdm := Nat.div_add_mod n s
      have hlt : n % s < s := Nat.mod_lt _ hs
      have he : n + s - 1 = s * (n / s + 1) + (n % s - 1) := by
        rw [Nat.mul_add, Nat.mul_one]
        omega
      have hc1 : (n + s - 1) / s = n / s + 1 := by
        rw [he, Nat.mul_add_div hs,
          Nat.div_eq_of_lt (show n % s - 1 < s by omega), Nat.add_zero]
      rw [hsucc, ih, if_neg (by simpa using h0), hc1, hc2, List.append_nil]

/-- A `filterMap` whose function always hits `some` is a `map`. -/
theorem filterMap_congr_some {α β : Type} {f : α → Option β} {g : α → β}
    (l : List α) (h : ∀ x ∈ l, f x = some (g x)) : l.filterMap f = l.map g := by
  induction l with
  | nil => rfl
  | cons x xs ih =>
    rw [List.filterMap_cons, List.map_cons, h x (List.mem_cons_self x xs),
      ih fun y hy => h y (List.mem_cons_of_mem x hy)]

/-- The time-axis loop draws a label for every stride index (the `break`
guard is dead), so both charts draw exactly `⌈count / step⌉` labels. -/
theorem timeAxisLabels_length (bars : List Bar) (width : ℚ) :
    (UnifiedChart.timeAxisLabels bars width).length
      = (bars.length + max 1 (bars.length / 4) - 1) / max 1 (bars.length / 4)
    ∧ (PriceChart.timeAxisLabels bars width).length
      = (bars.length + max 1 (bars.length / 4) - 1) / max 1 (bars.length / 4) := by
  have hs : 0 < max 1 (bars.length / 4) := lt_of_lt_of_le one_pos (le_max_left _ _)
  have hmem : ∀ i ∈ pyStride bars.length (max 1 (bars.length / 4)),
      ∃ b, bars[i]? = some b := by
    intro i hi
    have hin : i < bars.length := List.mem_range.mp (List.mem_filter.mp hi).1
    exact ⟨bars[i], (List.getElem?_eq_some).mpr ⟨hin, rfl⟩⟩
  constructor
  · simp only [UnifiedChart.timeAxisLabels]
    rw [filterMap_congr_some (g := fun (i : ℕ) =>
        (marginLeft + (width - marginLeft - marginRight - strikeMargin) * (i : ℚ)
            / (bars.length : ℚ),
         match bars[i]? with
         | some b => fmtHMS b.date
         | none => ""))
      _ (by
        intro i hi
        obtain ⟨b, hb⟩ := hmem i hi
        simp only [hb])]
    rw [List.length_map, pyStride_eq _ hs, List.length_map, List.length_range]
  · simp only [PriceChart.timeAxisLabels]
    rw [filterMap_congr_some (g := fun (i : ℕ) =>
        (marginLeft + (width - marginLeft - marginRight) * (i : ℚ)
            / (bars.length : ℚ),
         match bars[i]? with
         | some b => fmtHMS b.date
         | none => ""))
      _ (by
        intro i hi
        obtain ⟨b, hb⟩ := hmem i hi
        simp only [hb])]
    rw [List.length_map, pyStride_eq _ hs, List.length_map, List.length_range]

/-- The label count `⌈n / max(1, n//4)⌉` is at most `7`, and at most `5`
except at `n ∈ {6, 7, 11}`. -/
theorem stride_count_bound (n : ℕ) :
    (n + max 1 (n / 4) - 1) / max 1 (n / 4) ≤ 7
    ∧ (¬(n = 6 ∨ n = 7 ∨ n = 11) →
        (n + max 1 (n / 4) - 1) / max 1 (n / 4) ≤ 5) := by
  by_cases hn : n < 15
  · interval_cases n <;> decide
  · have hdm := Nat.div_add_mod n 4
    have hr : n % 4 < 4 := Nat.mod_lt _ (by norm_num)
    have hq : 3 ≤ n / 4 := by omega
    have hmax : max 1 (n / 4) = n / 4 := max_eq_right (by omega)
    rw [hmax]
    have hq0 : 0 < n / 4 := by omega
    have hlt : (n + n / 4 - 1) / (n / 4) < 6 := by
      rw [Nat.div_lt_iff_lt_mul hq0]
      omega
    constructor
    · omega
    · intro _
      omega

/-- `UnifiedChart` time labels in closed form: label `j` sits at stride index
`j * step`. -/
theorem timeAxisLabels_eq (bars : List Bar) (width : ℚ) :
    UnifiedChart.timeAxisLabels bars width
      = (List.range ((bars.length + max 1 (bars.length / 4) - 1)
            / max 1 (bars.length / 4))).map
          (fun j => (marginLeft + (width - marginLeft - marginRight - strikeMargin)
              * ((j * max 1 (bars.length / 4) : ℕ) : ℚ) / (bars.length : ℚ),
            match bars[j * max 1 (bars.length / 4)]? with
            | some b => fmtHMS b.date
            | none => "")) := by
  have hs : 0 < max 1 (bars.length / 4) := lt_of_lt_of_le one_pos (le_max_left _ _)
  simp only [UnifiedChart.timeAxisLabels]
  rw [filterMap_congr_some (g := fun (i : ℕ) =>
      (marginLeft + (width - marginLeft - marginRight - strikeMargin) * (i : ℚ)
          / (bars.length : ℚ),
       match bars[i]? with
       | some b => fmtHMS b.date
       | none => "")) _ (by
    intro i hi
    have hin : i < bars.length := List.mem_range.mp (List.mem_filter.mp hi).1
    have hsome : bars[i]? = some bars[i] := List.getElem?_eq_some.mpr ⟨hin, rfl⟩
    simp only [hsome])]
  rw [pyStride_eq _ hs, List.map_map]
  rfl

/-- The j-th drawn time label shows sample `j * step`, positioned at its
stride index. -/
theorem timeAxisLabels_get (bars : List Bar) (width : ℚ) (j : ℕ) (b : Bar)
    (hb : bars[j * max 1 (bars.length / 4)]? = some b) :
    (UnifiedChart.timeAxisLabels bars width)[j]?
      = some (marginLeft + (width - marginLeft - marginRight - strikeMargin)
            * ((j * max 1 (bars.length / 4) : ℕ) : ℚ) / (bars.length : ℚ),
          fmtHMS b.date) := by
  have hs : 0 < max 1 (bars.length / 4) := lt_of_lt_of_le one_pos (le_max_left _ _)
  obtain ⟨hlt, -⟩ := List.getElem?_eq_some.mp hb
  have hT : j < (bars.length + max 1 (bars.length / 4) - 1)
      / max 1 (bars.length / 4) := by
    have h1 : j ≤ (bars.length - 1) / max 1 (bars.length / 4) :=
      (Nat.le_div_iff_mul_le hs).mpr (by omega)
    have h2 : bars.length + max 1 (bars.length / 4) - 1
        = (bars.length - 1) + max 1 (bars.length / 4) := by omega
    rw [h2, Nat.add_div_right _ hs]
    omega
  rw [timeAxisLabels_eq, List.getElem?_map, List.getElem?_range hT]
  simp only [Option.map_some', hb]

/-- C9 (amended): both time-axis implementations draw `⌈count / step⌉` labels
with `step = max(1, count / 4)` at indices `0, step, 2*step, ...`, each label
showing that sample's time as `HH:MM:SS`.  That label count is NOT always at
most 5: it is at most 7 in general, and at most 5 for every count other than
6, 7 and 11. -/
theorem C9_time_axis_amended (bars : List Bar) (width : ℚ) :
    ((UnifiedChart.timeAxisLabels bars width).length
        = (bars.length + max 1 (bars.length / 4) - 1) / max 1 (bars.length / 4)
      ∧ (PriceChart.timeAxisLabels bars width).length
        = (bars.length + max 1 (bars.length / 4) - 1) / max 1 (bars.length / 4))
    ∧ (UnifiedChart.timeAxisLabels bars width).length ≤ 7
    ∧ (¬(bars.length = 6 ∨ bars.length = 7 ∨ bars.length = 11) →
        (UnifiedChart.timeAxisLabels bars width).length ≤ 5)
    ∧ ∀ j b, bars[j * max 1 (bars.length / 4)]? = some b →
        (UnifiedChart.timeAxisLabels bars width)[j]?
          = some (marginLeft + (width - marginLeft - marginRight - strikeMargin)
                * ((j * max 1 (bars.length / 4) : ℕ) : ℚ) / (bars.length : ℚ),
              fmtHMS b.date) := by
  obtain ⟨hU, hP⟩ := timeAxisLabels_length bars width
  obtain ⟨hb7, hb5⟩ := stride_count_bound bars.length
  exact ⟨⟨hU, hP⟩, by rw [hU]; exact hb7, fun h => by rw [hU]; exact hb5 h,
    fun j b hb => timeAxisLabels_get bars width j b hb⟩

/-- Witness for C9 on a two-sample history: at most 5 labels, and the first
label shows the first sample's time `09:30:00`. -/
theorem C9_time_axis_amended_witness :
    (UnifiedChart.timeAxisLabels
      [{ date := { hh := 9, mm := 30, ss := 0 }, quote := some (100, 101), close := 0 },
       { date := { hh := 9, mm := 31, ss := 0 }, quote := some (102, 103), close := 0 }]
      800).length ≤ 5 := by
  have h := C9_time_axis_amended
    [{ date := { hh := 9, mm := 30, ss := 0 }, quote := some (100, 101), close := 0 },
     { date := { hh := 9, mm := 31, ss := 0 }, quote := some (102, 103), close := 0 }]
    800
  exact h.2.2.1 (by simp)

/-- C9 counterexample: with 6 visible samples, `step = max(1, 6 // 4) = 1`,
so the loop draws 6 labels — more than the claimed maximum of 5. -/
theorem C9_counterexample :
    (UnifiedChart.timeAxisLabels
      [{ date := { hh := 9, mm := 30, ss := 0 }, quote := none, close := 1 },
       { date := { hh := 9, mm := 30, ss := 1 }, quote := none, close := 2 },
       { date := { hh := 9, mm := 30, ss := 2 }, quote := none, close := 3 },
       { date := { hh := 9, mm := 30, ss := 3 }, quote := none, close := 4 },
       { date := { hh := 9, mm := 30, ss := 4 }, quote := none, close := 5 },
       { date := { hh := 9, mm := 30, ss := 5 }, quote := none, close := 6 }]
      800).length = 6
    ∧ ¬((6 : ℕ) ≤ 5) := by
  constructor
  · rw [(timeAxisLabels_length
      [{ date := { hh := 9, mm := 30, ss := 0 }, quote := none, close := 1 },
       { date := { hh := 9, mm := 30, ss := 1 }, quote := none, close := 2 },
       { date := { hh := 9, mm := 30, ss := 2 }, quote := none, close := 3 },
       { date := { hh := 9, mm := 30, ss := 3 }, quote := none, close := 4 },
       { date := { hh := 9, mm := 30, ss := 4 }, quote := none, close := 5 },
       { date := { hh := 9, mm := 30, ss := 5 }, quote := none, close := 6 }]
      800).1]
    decide
  · decide

/-- `UnifiedChart.update_options` (unified_chart.py lines 147-163): caches the
snapshot and its maximum, overwrites both cached quotes with the spot price
when it is truthy (`if spot_price:`), and switches the exposure type when a
truthy one is given; nothing else is touched. -/
def UnifiedChart.updateOptions (s : UnifiedChart.State) (data : List OptionRow)
    (maxExposure : ℚ) (spotPrice : Option ℚ) (exposureType : Option String) :
    UnifiedChart.State :=
  let s1 := { s with optionsData := some data, maxExposure := some maxExposure }
  let s2 := if pyTruthy spotPrice then
      { s1 with currentBid := spotPrice, currentAsk := spotPrice }
    else s1
  if pyTruthyStr exposureType then
    { s2 with exposureType := exposureType.getD s2.exposureType }
  else s2

/-- C10: pushing an options snapshot with a truthy spot price overwrites both
the cached bid and ask with that spot; with `spot_price` equal to `None` or
`0` the cached quotes are untouched; and the cached price history and price
scale are never modified by `update_options`. -/
theorem C10_update_options_frame (s : UnifiedChart.State) (data : List OptionRow)
    (maxExposure : ℚ) (spotPrice : Option ℚ) (exposureType : Option String) :
    ((UnifiedChart.updateOptions s data maxExposure spotPrice exposureType).priceHistory
        = s.priceHistory)
    ∧ ((UnifiedChart.updateOptions s data maxExposure spotPrice exposureType).priceScale
        = s.priceScale)
    ∧ (pyTruthy spotPrice →
        (UnifiedChart.updateOptions s data maxExposure spotPrice
            exposureType).currentBid = spotPrice
        ∧ (UnifiedChart.updateOptions s data maxExposure spotPrice
            exposureType).currentAsk = spotPrice)
    ∧ (¬ pyTruthy spotPrice →
        (UnifiedChart.updateOptions s data maxExposure spotPrice
            exposureType).currentBid = s.currentBid
        ∧ (UnifiedChart.updateOptions s data maxExposure spotPrice
            exposureType).currentAsk = s.currentAsk) := by
  unfold UnifiedChart.updateOptions
  by_cases hsp : pyTruthy spotPrice <;> by_cases he : pyTruthyStr exposureType <;>
    simp [hsp, he]

/-- Witness for C10: a spot price of `5000` replaces a previously cached
quote `(4990, 4991)` on both sides. -/
theorem C10_update_options_frame_witness :
    ((UnifiedChart.updateOptions
        { UnifiedChart.initState with currentBid := some 4990, currentAsk := some 4991 }
        [] 1 (some 5000) none).currentBid = some 5000)
    ∧ ((UnifiedChart.updateOptions
        { UnifiedChart.initState with currentBid := some 4990, currentAsk := some 4991 }
        [] 1 (some 5000) none).currentAsk = some 5000) := by
  have h := C10_update_options_frame
    { UnifiedChart.initState with currentBid := some 4990, currentAsk := some 4991 }
    [] 1 (some 5000) none
  exact h.2.2.1 (by simp [pyTruthy])
